import Mathlib

/-!
Verification of the URL-shortening service in `src/examples/shortener.rs`.

The Rust program stores `(id, url)` pairs in a Postgres table
`urls (id CHAR(6) PRIMARY KEY, url TEXT NOT NULL UNIQUE)`.  We embed the
table as a list of records, the two SQL statements as pure functions on
that list, the `nanoid!(6)` generator as a function of its random choices,
and the axum handlers (`shorten`, `redirect`, `handle_timeout_error`) plus
the `IntoResponse` instance for `AppError` as pure functions producing
HTTP statuses and bodies.
-/

set_option autoImplicit false

namespace Shortener

/-- A row of the `urls` table: `id CHAR(6) PRIMARY KEY, url TEXT NOT NULL UNIQUE`
(mirrors the Rust struct `UrlRecord { id: String, url: String }`). -/
structure UrlRecord where
  id : String
  url : String
deriving DecidableEq, Repr

/-- The state of the `urls` table, in insertion order. -/
abbrev Store := List UrlRecord

/-- Errors surfaced by the sqlx calls that the embedding distinguishes:
`RowNotFound` from `fetch_one` on an empty result, and a unique-constraint
violation naming the violated constraint. -/
inductive DbError where
  | RowNotFound
  | UniqueViolation (constraintName : String)
deriving DecidableEq, Repr

/-- The display text sqlx gives each error (what `err.to_string()` of the
wrapping `anyhow::Error` shows). -/
def dbErrorMessage : DbError → String
  | .RowNotFound =>
      "no rows returned by a query that expected to return at least one row"
  | .UniqueViolation c =>
      "error returned from database: duplicate key value violates unique constraint \x22" ++ c ++ "\x22"

/-- First record whose `url` column equals `u` (the `UNIQUE` arbiter of
`ON CONFLICT(url)`). -/
def findByUrl (s : Store) (u : String) : Option UrlRecord :=
  s.find? (fun r => r.url == u)

/-- First record whose `id` column equals `i` (primary-key lookup). -/
def findById (s : Store) (i : String) : Option UrlRecord :=
  s.find? (fun r => r.id == i)

/-- Semantics of
`INSERT INTO urls(id, url) VALUES ($1, $2) ON CONFLICT(url) DO UPDATE SET url=EXCLUDED.url RETURNING id;`:
if a record with the same `url` exists, the conflict action rewrites its
`url` to itself (a no-op) and returns its `id`; otherwise a clash on the
primary key `id` is not covered by the arbiter and raises a unique
violation on `urls_pkey`; otherwise the row is inserted and its `id`
returned. -/
def dbPut (s : Store) (code url : String) : Except DbError (String × Store) :=
  match findByUrl s url with
  | some r => .ok (r.id, s)
  | none =>
    match findById s code with
    | some _ => .error (.UniqueViolation "urls_pkey")
    | none => .ok (code, s ++ [⟨code, url⟩])

/-- Semantics of `SELECT url FROM urls WHERE id = $1;` run through
`fetch_one`: the bound url, or `RowNotFound`. -/
def dbGetUrl (s : Store) (i : String) : Except DbError String :=
  match findById s i with
  | some r => .ok r.url
  | none => .error .RowNotFound

/-- The default alphabet of the Rust `nanoid` crate (`alphabet::SAFE`):
`_`, `-`, digits, lowercase then uppercase letters — 64 URL-safe symbols. -/
def nanoidAlphabet : List Char :=
  "_-0123456789abcdefghijklmnopqrstuvwxyzABCDEFGHIJKLMNOPQRSTUVWXYZ".toList

/-- `nanoid::nanoid!(6)`: six symbols drawn from the 64-symbol alphabet,
indexed by the generator's random choices `rand`. -/
def nanoid6 (rand : Fin 6 → Fin 64) : String :=
  String.mk ((List.finRange 6).map (fun i => nanoidAlphabet.getD (rand i).val '_'))

/-- `AppState::shorten`: generate a nanoid of length 6, run the upsert
statement, return the id it reports.  The random choices are made explicit;
the resulting table state is returned alongside the id. -/
def AppState.shorten (s : Store) (url : String) (rand : Fin 6 → Fin 64) :
    Except DbError (String × Store) :=
  match dbPut s (nanoid6 rand) url with
  | .error e => .error e
  | .ok (id, s') => .ok (id, s')

/-- `AppState::get_url`: delegate to the `SELECT` statement. -/
def AppState.get_url (s : Store) (i : String) : Except DbError String :=
  dbGetUrl s i

/-- The variants of the Rust `AppError` enum, with the data the
`IntoResponse` instance consumes: the precomputed status and body text of a
JSON rejection, and the display text of the error wrapped by
`InternalServer` / carried by the other variants. -/
inductive AppError where
  | Io (msg : String)
  | JsonRejection (status : Nat) (bodyText : String)
  | Db (e : DbError)
  | Timeout
  | InternalServer (msg : String)
deriving DecidableEq, Repr

/-- Display text of `AppError::Timeout` (thiserror format string applied to
tower's `Elapsed`, whose display is `request timed out`). -/
def timeoutErrorMessage : String :=
  "Timeout error: request timed out, request took too long, max time is 1ms"

/-- `impl IntoResponse for AppError`: the `(StatusCode, message)` pair the
match at the bottom of the file produces (408 = REQUEST_TIMEOUT,
500 = INTERNAL_SERVER_ERROR). -/
def AppError.into_response : AppError → Nat × String
  | .JsonRejection st body => (st, body)
  | .Timeout => (408, timeoutErrorMessage)
  | .InternalServer msg => (500, msg)
  | _ => (500, "Internal server error")

/-- `const BASE_URL: &str = "0.0.0.0:9876";` -/
def BASE_URL : String := "0.0.0.0:9876"

/-- The per-request deadline installed in `main` by
`ServiceBuilder::new().timeout(Duration::from_secs(30))`. -/
def requestTimeoutSecs : Nat := 30

/-- `handle_timeout_error`: a `BoxError` that is tower's `Elapsed` becomes
`AppError::Timeout`; anything else becomes a generic internal error. -/
def handle_timeout_error (isElapsed : Bool) : AppError :=
  if isElapsed then .Timeout else .InternalServer "Internal server error"

/-- Validity of one character inside an HTTP header value, per the `http`
crate's `HeaderValue::from_str` byte check (each byte must be `\t` or in
`32..=255` excluding 127; every byte of a multi-byte UTF-8 character is
at least 128, hence accepted). -/
def isValidHeaderChar (c : Char) : Bool :=
  c == '\t' || (32 ≤ c.toNat && c.toNat != 127) || 128 ≤ c.toNat

/-- `url.parse::<HeaderValue>()`: `some` of the string when every character
is acceptable in a header value, otherwise `none` (an `Err`, which the
handler unwraps). -/
def headerValueParse (u : String) : Option String :=
  if u.data.all isValidHeaderChar then some u else none

/-- What a handler invocation does, as observed at the HTTP boundary:
return a `(status, header-or-body)` success, return an `AppError` (which the
framework feeds to `into_response`), or abort the task by panicking. -/
inductive HandlerOutcome where
  | ok (status : Nat) (payload : String)
  | err (e : AppError)
  | panicked
deriving DecidableEq, Repr

/-- The `redirect` handler: look the id up, wrap a failure in
`AppError::InternalServer`; on success build the `Location` header with
`url.parse().unwrap()` — a panic when the stored url is not a valid header
value — and answer `308 PERMANENT_REDIRECT`. -/
def redirect (s : Store) (i : String) : HandlerOutcome :=
  match AppState.get_url s i with
  | .error e => .err (.InternalServer (dbErrorMessage e))
  | .ok url =>
    match headerValueParse url with
    | none => .panicked
    | some v => .ok 308 v

/-- The `shorten` handler: run `AppState::shorten`, wrap a failure in
`AppError::InternalServer`, otherwise answer `201 CREATED` with the short
link `http://<BASE_URL>/<id>` as body.  The table state after the call is
returned alongside. -/
def shorten (s : Store) (url : String) (rand : Fin 6 → Fin 64) :
    HandlerOutcome × Store :=
  match AppState.shorten s url rand with
  | .error e => (.err (.InternalServer (dbErrorMessage e)), s)
  | .ok (id, s') => (.ok 201 ("http://" ++ BASE_URL ++ "/" ++ id), s')

/-- The invariants installed by the schema in `AppState::try_new`:
`id CHAR(6) PRIMARY KEY` and `url TEXT NOT NULL UNIQUE` — all ids distinct
and all urls distinct. -/
def StoreInv (s : Store) : Prop :=
  (s.map UrlRecord.id).Nodup ∧ (s.map UrlRecord.url).Nodup

instance (s : Store) : Decidable (StoreInv s) := by
  unfold StoreInv; infer_instance

/-- The spec's URL-safe alphabet: letters, digits, `-`, `_`. -/
def isUrlSafeChar (c : Char) : Bool :=
  c.isAlpha || c.isDigit || c == '-' || c == '_'

/-- The spec's shape of a short code: exactly 6 characters, all URL-safe. -/
def codeShape (c : String) : Bool :=
  c.length == 6 && c.data.all isUrlSafeChar

/-! ## Helper lemmas about the store operations -/

theorem findByUrl_url {s : Store} {u : String} {r : UrlRecord}
    (h : findByUrl s u = some r) : r.url = u := by
  unfold findByUrl at h
  have hp := List.find?_some h
  exact eq_of_beq hp

theorem findByUrl_mem {s : Store} {u : String} {r : UrlRecord}
    (h : findByUrl s u = some r) : r ∈ s := by
  unfold findByUrl at h
  exact List.mem_of_find?_eq_some h

theorem findById_none {s : Store} {i : String} (h : findById s i = none) :
    ∀ r ∈ s, r.id ≠ i := by
  intro r hr
  have := List.find?_eq_none.mp h r hr
  simpa using this

theorem findByUrl_none {s : Store} {u : String} (h : findByUrl s u = none) :
    ∀ r ∈ s, r.url ≠ u := by
  intro r hr
  have := List.find?_eq_none.mp h r hr
  simpa using this

theorem findById_append_none {s : Store} {i : String}
    (h : findById s i = none) (x : UrlRecord) :
    findById (s ++ [x]) i = findById [x] i := by
  unfold findById at h ⊢
  rw [List.find?_append, h]
  rfl

theorem findByUrl_append_none {s : Store} {u : String}
    (h : findByUrl s u = none) (x : UrlRecord) :
    findByUrl (s ++ [x]) u = findByUrl [x] u := by
  unfold findByUrl at h ⊢
  rw [List.find?_append, h]
  rfl

theorem findById_append_some {s : Store} {i : String} {r : UrlRecord}
    (h : findById s i = some r) (x : UrlRecord) :
    findById (s ++ [x]) i = some r := by
  unfold findById at h ⊢
  rw [List.find?_append, h]
  rfl

theorem findById_of_mem {s : Store} {r : UrlRecord}
    (hnd : (s.map UrlRecord.id).Nodup) (hm : r ∈ s) :
    findById s r.id = some r := by
  induction s with
  | nil => cases hm
  | cons x t ih =>
    rw [List.map_cons, List.nodup_cons] at hnd
    rcases List.mem_cons.mp hm with rfl | hm'
    · unfold findById
      simp [List.find?_cons]
    · have hx : (x.id == r.id) = false := by
        refine beq_eq_false_iff_ne.mpr (fun he => hnd.1 ?_)
        exact he ▸ List.mem_map_of_mem UrlRecord.id hm'
      unfold findById
      simp only [List.find?_cons, hx]
      exact ih hnd.2 hm'

theorem length_filter_url_eq_one {s : Store} {u : String} {r : UrlRecord}
    (hnd : (s.map UrlRecord.url).Nodup) (hm : r ∈ s) (hu : r.url = u) :
    (s.filter (fun x => x.url == u)).length = 1 := by
  calc (s.filter (fun x => x.url == u)).length
      = s.countP (fun x => x.url == u) := (List.countP_eq_length_filter _ _).symm
    _ = (s.map UrlRecord.url).count u := by
        show s.countP (fun x => x.url == u) = (s.map UrlRecord.url).countP (fun x => x == u)
        rw [List.countP_map]
        rfl
    _ = 1 := List.count_eq_one_of_mem hnd (hu ▸ List.mem_map_of_mem UrlRecord.url hm)

theorem filter_url_eq_nil {s : Store} {u : String} (h : findByUrl s u = none) :
    s.filter (fun x => x.url == u) = [] := by
  rw [List.filter_eq_nil_iff]
  intro r hr
  simpa using findByUrl_none h r hr

theorem AppState.shorten_eq (s : Store) (u : String) (rand : Fin 6 → Fin 64) :
    AppState.shorten s u rand = dbPut s (nanoid6 rand) u := by
  unfold AppState.shorten
  cases dbPut s (nanoid6 rand) u with
  | error e => rfl
  | ok p => cases p; rfl

/-- Case analysis on a successful `dbPut`: either the url was present and the
call returned its record's id leaving the table unchanged, or the url and the
proposed code were both absent and the row was inserted. -/
theorem dbPut_ok_cases {s : Store} {cd u c : String} {s' : Store}
    (h : dbPut s cd u = .ok (c, s')) :
    (∃ r, findByUrl s u = some r ∧ c = r.id ∧ s' = s) ∨
    (findByUrl s u = none ∧ findById s cd = none ∧ c = cd ∧ s' = s ++ [⟨cd, u⟩]) := by
  unfold dbPut at h
  cases hurl : findByUrl s u with
  | some r =>
    rw [hurl] at h
    refine .inl ⟨r, rfl, ?_, ?_⟩ <;> cases h <;> rfl
  | none =>
    rw [hurl] at h
    cases hid : findById s cd with
    | some r => rw [hid] at h; cases h
    | none =>
      rw [hid] at h
      refine .inr ⟨rfl, rfl, ?_, ?_⟩ <;> cases h <;> rfl

theorem dbPut_ok_get {s : Store} {cd u c : String} {s' : Store}
    (hinv : StoreInv s) (h : dbPut s cd u = .ok (c, s')) :
    dbGetUrl s' c = .ok u := by
  rcases dbPut_ok_cases h with ⟨r, hurl, rfl, rfl⟩ | ⟨hurl, hid, rfl, rfl⟩
  · unfold dbGetUrl
    rw [findById_of_mem hinv.1 (findByUrl_mem hurl)]
    simp [findByUrl_url hurl]
  · unfold dbGetUrl
    rw [findById_append_none hid]
    unfold findById
    simp [List.find?_cons]

theorem dbPut_ok_inv {s : Store} {cd u c : String} {s' : Store}
    (hinv : StoreInv s) (h : dbPut s cd u = .ok (c, s')) :
    StoreInv s' := by
  rcases dbPut_ok_cases h with ⟨r, hurl, rfl, rfl⟩ | ⟨hurl, hid, rfl, rfl⟩
  · exact hinv
  · constructor
    · rw [List.map_append]
      rw [List.nodup_append]
      refine ⟨hinv.1, List.nodup_singleton _, ?_⟩
      intro a ha hb
      simp only [List.map_cons, List.map_nil, List.mem_singleton] at hb
      rcases List.mem_map.mp ha with ⟨r, hr, rfl⟩
      exact findById_none hid r hr hb
    · rw [List.map_append]
      rw [List.nodup_append]
      refine ⟨hinv.2, List.nodup_singleton _, ?_⟩
      intro a ha hb
      simp only [List.map_cons, List.map_nil, List.mem_singleton] at hb
      rcases List.mem_map.mp ha with ⟨r, hr, rfl⟩
      exact findByUrl_none hurl r hr hb

theorem dbPut_preserve_findById {s : Store} {cd u c : String} {s' : Store}
    {i : String} {r : UrlRecord}
    (h : dbPut s cd u = .ok (c, s')) (hf : findById s i = some r) :
    findById s' i = some r := by
  rcases dbPut_ok_cases h with ⟨r', _, rfl, rfl⟩ | ⟨hurl, hid, rfl, rfl⟩
  · exact hf
  · exact findById_append_some hf _

/-- A second `dbPut` for the same url (with any proposed code) returns the
same id and leaves the table unchanged. -/
theorem dbPut_idem {s : Store} {cd u c : String} {s' : Store}
    (h : dbPut s cd u = .ok (c, s')) (cd' : String) :
    dbPut s' cd' u = .ok (c, s') := by
  rcases dbPut_ok_cases h with ⟨r, hurl, rfl, rfl⟩ | ⟨hurl, hid, rfl, rfl⟩
  · unfold dbPut
    rw [hurl]
  · unfold dbPut
    rw [findByUrl_append_none hurl]
    unfold findByUrl
    simp [List.find?_cons]

theorem dbPut_ok_count {s : Store} {cd u c : String} {s' : Store}
    (hinv : StoreInv s) (h : dbPut s cd u = .ok (c, s')) :
    (s'.filter (fun x => x.url == u)).length = 1 := by
  rcases dbPut_ok_cases h with ⟨r, hurl, rfl, rfl⟩ | ⟨hurl, hid, rfl, rfl⟩
  · exact length_filter_url_eq_one hinv.2 (findByUrl_mem hurl) (findByUrl_url hurl)
  · rw [List.filter_append, filter_url_eq_nil hurl]
    simp

/-! ## Helper lemmas about the generator -/

theorem nanoidAlphabet_length : nanoidAlphabet.length = 64 := by decide

theorem nanoidAlphabet_urlSafe : ∀ c ∈ nanoidAlphabet, isUrlSafeChar c = true := by decide

theorem nanoid6_length (rand : Fin 6 → Fin 64) : (nanoid6 rand).length = 6 := by
  show ((List.finRange 6).map _).length = 6
  simp

theorem nanoid6_chars (rand : Fin 6 → Fin 64) :
    ∀ c ∈ (nanoid6 rand).data, isUrlSafeChar c = true := by
  intro c hc
  have hc' : c ∈ (List.finRange 6).map (fun i => nanoidAlphabet.getD (rand i).val '_') := hc
  rcases List.mem_map.mp hc' with ⟨i, _, rfl⟩
  have hlt : (rand i).val < nanoidAlphabet.length := by
    rw [nanoidAlphabet_length]; exact (rand i).isLt
  rw [List.getD_eq_getElem nanoidAlphabet '_' hlt]
  exact nanoidAlphabet_urlSafe _ (List.getElem_mem hlt)

theorem nanoid6_codeShape (rand : Fin 6 → Fin 64) : codeShape (nanoid6 rand) = true := by
  unfold codeShape
  rw [Bool.and_eq_true, beq_iff_eq, List.all_eq_true]
  exact ⟨nanoid6_length rand, nanoid6_chars rand⟩

theorem dbGetUrl_ok {s : Store} {i u : String} (h : dbGetUrl s i = .ok u) :
    ∃ r, findById s i = some r ∧ r.url = u := by
  unfold dbGetUrl at h
  cases hf : findById s i with
  | none => rw [hf] at h; cases h
  | some r =>
    rw [hf] at h
    refine ⟨r, rfl, ?_⟩
    injection h

/-! ## The claims -/

/-- C1 — Round-trip: on a table satisfying the schema invariants, whenever
`AppState::shorten u` succeeds with code `c`, `AppState::get_url c` on the
resulting table returns `u` verbatim. -/
theorem C1_round_trip (s : Store) (u : String) (rand : Fin 6 → Fin 64)
    (c : String) (s' : Store) (hinv : StoreInv s)
    (h : AppState.shorten s u rand = .ok (c, s')) :
    AppState.get_url s' c = .ok u := by
  rw [AppState.shorten_eq] at h
  exact dbPut_ok_get hinv h

theorem C1_round_trip_witness :
    AppState.get_url [⟨"______", "https://example.com"⟩] "______" =
      .ok "https://example.com" :=
  C1_round_trip [] "https://example.com" (fun _ => 0) "______"
    [⟨"______", "https://example.com"⟩] (by decide) rfl

/-- C2 — Idempotent upsert: after a successful `shorten u`, a second
`shorten u` (with any fresh random choices) returns the same code and leaves
the table unchanged, and the table holds exactly one record for `u`. -/
theorem C2_idempotent_upsert (s : Store) (u : String) (r1 r2 : Fin 6 → Fin 64)
    (c : String) (s' : Store) (hinv : StoreInv s)
    (h : AppState.shorten s u r1 = .ok (c, s')) :
    AppState.shorten s' u r2 = .ok (c, s') ∧
    (s'.filter (fun x => x.url == u)).length = 1 := by
  rw [AppState.shorten_eq] at h
  rw [AppState.shorten_eq]
  exact ⟨dbPut_idem h _, dbPut_ok_count hinv h⟩

theorem C2_idempotent_upsert_witness :
    AppState.shorten [⟨"______", "https://example.com"⟩] "https://example.com"
      (fun _ => 1) = .ok ("______", [⟨"______", "https://example.com"⟩]) ∧
    ([(⟨"______", "https://example.com"⟩ : UrlRecord)].filter
      (fun x => x.url == "https://example.com")).length = 1 :=
  C2_idempotent_upsert [] "https://example.com" (fun _ => 0) (fun _ => 1)
    "______" [⟨"______", "https://example.com"⟩] (by decide) rfl

/-- C3 counterexample: resolving a code with no record (`"zzzzzz"` on an
empty table) is wrapped by the `redirect` handler in
`AppError::InternalServer` and answered with status 500, not 404 — the
not-found condition is surfaced as an internal error, contrary to the
claim. -/
theorem C3_counterexample :
    redirect [] "zzzzzz" = .err (.InternalServer (dbErrorMessage .RowNotFound)) ∧
    (AppError.InternalServer (dbErrorMessage .RowNotFound)).into_response.1 = 500 ∧
    ¬ (AppError.InternalServer (dbErrorMessage .RowNotFound)).into_response.1 = 404 :=
  ⟨rfl, rfl, by decide⟩

/-- C3 (amended) — for a code bound to no record, `get_url` fails with the
database `RowNotFound` error, but the `redirect` handler wraps it in
`AppError::InternalServer`, which the boundary maps to status 500: no
distinct 404-equivalent condition exists. -/
theorem C3_not_found_amended (s : Store) (c : String) (h : findById s c = none) :
    AppState.get_url s c = .error .RowNotFound ∧
    redirect s c = .err (.InternalServer (dbErrorMessage .RowNotFound)) ∧
    (AppError.InternalServer (dbErrorMessage .RowNotFound)).into_response.1 = 500 := by
  have hg : AppState.get_url s c = .error .RowNotFound := by
    unfold AppState.get_url dbGetUrl
    rw [h]
  refine ⟨hg, ?_, rfl⟩
  unfold redirect
  rw [hg]

theorem C3_not_found_amended_witness :
    AppState.get_url [⟨"______", "http://a"⟩] "aaaaaa" = .error .RowNotFound ∧
    redirect [⟨"______", "http://a"⟩] "aaaaaa" =
      .err (.InternalServer (dbErrorMessage .RowNotFound)) ∧
    (AppError.InternalServer (dbErrorMessage .RowNotFound)).into_response.1 = 500 :=
  C3_not_found_amended [⟨"______", "http://a"⟩] "aaaaaa" rfl

/-- C4 counterexample: with `"______"` already bound to `http://a`, shortening
`http://b` while the generator proposes `"______"` again makes the insert fail
at once with the `urls_pkey` unique violation, and the handler surfaces it as
`InternalServer` — no second generation attempt is ever made, contrary to the
claimed bounded retry. -/
theorem C4_counterexample :
    AppState.shorten [⟨"______", "http://a"⟩] "http://b" (fun _ => 0) =
      .error (.UniqueViolation "urls_pkey") ∧
    (shorten [⟨"______", "http://a"⟩] "http://b" (fun _ => 0)).1 =
      .err (.InternalServer (dbErrorMessage (.UniqueViolation "urls_pkey"))) :=
  ⟨rfl, rfl⟩

/-- C4 (amended) — when the generated code is already bound to a different
URL, the insert fails with a unique violation on `urls_pkey` (distinct from
the url-conflict case, which succeeds via the upsert), and the service
performs no retry: the single-attempt failure is surfaced to the caller as an
internal error (500); the collision is never surfaced as a distinct
condition. -/
theorem C4_collision_amended (s : Store) (u : String) (rand : Fin 6 → Fin 64)
    (hurl : findByUrl s u = none) (hid : findById s (nanoid6 rand) ≠ none) :
    AppState.shorten s u rand = .error (.UniqueViolation "urls_pkey") ∧
    (shorten s u rand).1 =
      .err (.InternalServer (dbErrorMessage (.UniqueViolation "urls_pkey"))) ∧
    (AppError.InternalServer
      (dbErrorMessage (.UniqueViolation "urls_pkey"))).into_response.1 = 500 := by
  obtain ⟨r, hr⟩ : ∃ r, findById s (nanoid6 rand) = some r := by
    cases hfind : findById s (nanoid6 rand) with
    | none => exact absurd hfind hid
    | some r => exact ⟨r, rfl⟩
  have hs : AppState.shorten s u rand = .error (.UniqueViolation "urls_pkey") := by
    rw [AppState.shorten_eq]
    unfold dbPut
    rw [hurl, hr]
  refine ⟨hs, ?_, rfl⟩
  unfold shorten
  rw [hs]

theorem C4_collision_amended_witness :
    AppState.shorten [⟨"______", "http://c"⟩] "http://d" (fun _ => 0) =
      .error (.UniqueViolation "urls_pkey") ∧
    (shorten [⟨"______", "http://c"⟩] "http://d" (fun _ => 0)).1 =
      .err (.InternalServer (dbErrorMessage (.UniqueViolation "urls_pkey"))) ∧
    (AppError.InternalServer
      (dbErrorMessage (.UniqueViolation "urls_pkey"))).into_response.1 = 500 :=
  C4_collision_amended [⟨"______", "http://c"⟩] "http://d" (fun _ => 0)
    rfl (by decide)

/-- C5 — Uniqueness: starting from a table satisfying the schema invariants,
two successful shortenings of distinct URLs return distinct codes, and both
intermediate and final tables still satisfy the invariants (each url in one
record, each code a unique key). -/
theorem C5_uniqueness (s : Store) (u1 u2 : String) (r1 r2 : Fin 6 → Fin 64)
    (c1 c2 : String) (s1 s2 : Store) (hinv : StoreInv s) (hne : u1 ≠ u2)
    (h1 : AppState.shorten s u1 r1 = .ok (c1, s1))
    (h2 : AppState.shorten s1 u2 r2 = .ok (c2, s2)) :
    c1 ≠ c2 ∧ StoreInv s1 ∧ StoreInv s2 := by
  rw [AppState.shorten_eq] at h1 h2
  have hinv1 := dbPut_ok_inv hinv h1
  have hinv2 := dbPut_ok_inv hinv1 h2
  refine ⟨?_, hinv1, hinv2⟩
  intro he
  obtain ⟨ra, hfa, hua⟩ := dbGetUrl_ok (dbPut_ok_get hinv h1)
  obtain ⟨rb, hfb, hub⟩ := dbGetUrl_ok (dbPut_ok_get hinv1 h2)
  have hfa2 : findById s2 c1 = some ra := dbPut_preserve_findById h2 hfa
  rw [he] at hfa2
  have hab : ra = rb := by
    have hsome := hfa2.symm.trans hfb
    injection hsome
  exact hne (by rw [← hua, hab, hub])

theorem C5_uniqueness_witness :
    ("______" : String) ≠ "------" ∧
    StoreInv [⟨"______", "http://a"⟩] ∧
    StoreInv [⟨"______", "http://a"⟩, ⟨"------", "http://b"⟩] :=
  C5_uniqueness [] "http://a" "http://b" (fun _ => 0) (fun _ => 1)
    "______" "------" [⟨"______", "http://a"⟩]
    [⟨"______", "http://a"⟩, ⟨"------", "http://b"⟩]
    (by decide) (by decide) rfl rfl

/-- C6 counterexample: `AppState::shorten` applied to the empty string on an
empty table succeeds and inserts a record for `""`, and the handler answers
`201 Created` — contrary to the claim that the empty string is rejected
before any store operation. -/
theorem C6_counterexample :
    AppState.shorten [] "" (fun _ => 0) = .ok ("______", [⟨"______", ""⟩]) ∧
    (shorten [] "" (fun _ => 0)).1 =
      .ok 201 ("http://" ++ BASE_URL ++ "/" ++ "______") :=
  ⟨rfl, rfl⟩

/-- C6 (amended) — the service performs no emptiness (or any other)
validation of the URL: the empty string is shortened and stored like any
other input; the only structural validation is the boundary's JSON
extraction, whose rejection is surfaced directly with its own status and
body. -/
theorem C6_no_validation_amended (s : Store) (rand : Fin 6 → Fin 64)
    (hurl : findByUrl s "" = none) (hid : findById s (nanoid6 rand) = none) :
    AppState.shorten s "" rand = .ok (nanoid6 rand, s ++ [⟨nanoid6 rand, ""⟩]) ∧
    ∀ st b, (AppError.JsonRejection st b).into_response = (st, b) := by
  constructor
  · rw [AppState.shorten_eq]
    unfold dbPut
    rw [hurl, hid]
  · intro st b
    rfl

theorem C6_no_validation_amended_witness :
    AppState.shorten [⟨"------", "http://a"⟩] "" (fun _ => 0) =
      .ok ("______", [⟨"------", "http://a"⟩, ⟨"______", ""⟩]) ∧
    (AppError.JsonRejection 422 "Failed to parse JSON").into_response =
      (422, "Failed to parse JSON") :=
  ⟨(C6_no_validation_amended [⟨"------", "http://a"⟩] (fun _ => 0) rfl rfl).1,
   (C6_no_validation_amended [⟨"------", "http://a"⟩] (fun _ => 0) rfl rfl).2
     422 "Failed to parse JSON"⟩

/-- C7 — Code shape: every code the generator produces is exactly 6
characters from the URL-safe alphabet, and every code a successful
`AppState::shorten` returns has that shape provided every id already in the
table has it (as the `CHAR(6)` ids written by this program do). -/
theorem C7_code_shape :
    (∀ rand : Fin 6 → Fin 64, codeShape (nanoid6 rand) = true) ∧
    (∀ (s : Store) (u : String) (rand : Fin 6 → Fin 64) (c : String) (s' : Store),
      (∀ r ∈ s, codeShape r.id = true) →
      AppState.shorten s u rand = .ok (c, s') → codeShape c = true) := by
  refine ⟨nanoid6_codeShape, ?_⟩
  intro s u rand c s' hall h
  rw [AppState.shorten_eq] at h
  rcases dbPut_ok_cases h with ⟨r, hurl, rfl, rfl⟩ | ⟨_, _, rfl, rfl⟩
  · exact hall r (findByUrl_mem hurl)
  · exact nanoid6_codeShape rand

theorem C7_code_shape_witness : codeShape "______" = true :=
  C7_code_shape.2 [] "https://example.com" (fun _ => 0) "______"
    [⟨"______", "https://example.com"⟩] (by simp) rfl

/-- C8 — Timeout policy: the router's deadline is the fixed 30 seconds; an
elapsed deadline becomes `AppError::Timeout`, mapped to status 408, while any
other boxed error becomes a generic internal error mapped to 500 — two
distinct conditions. -/
theorem C8_timeout_policy :
    requestTimeoutSecs = 30 ∧
    handle_timeout_error true = .Timeout ∧
    (handle_timeout_error true).into_response.1 = 408 ∧
    handle_timeout_error false = .InternalServer "Internal server error" ∧
    (handle_timeout_error false).into_response.1 = 500 ∧
    (handle_timeout_error true).into_response.1 ≠
      (handle_timeout_error false).into_response.1 :=
  ⟨rfl, rfl, rfl, rfl, rfl, by decide⟩

/-- C9 counterexample: the code-collision failure wrapped by the `shorten`
handler reaches the boundary as `InternalServer` carrying the database error
text, and `into_response` puts exactly that text in the 500 response body —
backend details are leaked, contrary to the claim. -/
theorem C9_counterexample :
    (shorten [⟨"______", "http://e"⟩] "http://f" (fun _ => 0)).1 =
      .err (.InternalServer (dbErrorMessage (.UniqueViolation "urls_pkey"))) ∧
    (AppError.InternalServer
      (dbErrorMessage (.UniqueViolation "urls_pkey"))).into_response =
      (500, dbErrorMessage (.UniqueViolation "urls_pkey")) ∧
    dbErrorMessage (.UniqueViolation "urls_pkey") ≠ "Internal server error" :=
  ⟨rfl, rfl, by decide⟩

/-- C9 (amended) — only the unused `AppError::Db` variant gets the generic
`"Internal server error"` body; the handlers wrap every storage failure in
`AppError::InternalServer`, whose 500 response body is the wrapped error's
display text, so database error text is exposed to the caller. -/
theorem C9_internal_amended (e : DbError) :
    (AppError.Db e).into_response = (500, "Internal server error") ∧
    (AppError.InternalServer (dbErrorMessage e)).into_response =
      (500, dbErrorMessage e) :=
  ⟨rfl, rfl⟩

/-- C10 — Redirect panic: when lookup succeeds, the `redirect` handler
panics exactly when the stored url fails the header-value character check
(the `url.parse().unwrap()`), and in particular it panics on a stored url
containing a newline. -/
theorem C10_redirect_panic :
    (∀ (s : Store) (i : String) (r : UrlRecord), findById s i = some r →
      (redirect s i = .panicked ↔ r.url.data.all isValidHeaderChar = false)) ∧
    redirect [⟨"abc123", "http://a\nb"⟩] "abc123" = .panicked := by
  constructor
  · intro s i r hf
    have hg : AppState.get_url s i = .ok r.url := by
      unfold AppState.get_url dbGetUrl
      rw [hf]
    cases hv : r.url.data.all isValidHeaderChar with
    | true => simp [redirect, hg, headerValueParse, hv]
    | false => simp [redirect, hg, headerValueParse, hv]
  · rfl

theorem C10_redirect_panic_witness :
    (redirect [⟨"cccccc", "http://x"⟩] "cccccc" = .panicked ↔
      ("http://x".data.all isValidHeaderChar) = false) ∧
    redirect [⟨"abc123", "http://a\nb"⟩] "abc123" = .panicked :=
  ⟨C10_redirect_panic.1 [⟨"cccccc", "http://x"⟩] "cccccc"
    ⟨"cccccc", "http://x"⟩ rfl, C10_redirect_panic.2⟩

end Shortener
